import Mathlib

/-!
Shallow embedding of the study-tracking app's recommendation and analytics
engine (the selectors getDailyMinutesThisWeek, getCourseCompletionData and
getStudyRecommendations of the study slice), together with theorems checking
the specification's claims about them.

Timestamps are modelled as integer milliseconds since the epoch in a fixed
timezone (offset 0), so a calendar day is a half-open interval of length
86400000 and JavaScript's setHours(0,0,0,0) becomes rounding down to a
multiple of 86400000.  JavaScript number arithmetic on these quantities is
exact at every value the engine can produce; Math.floor of a quotient is
the floor of the exact quotient and Math.round x is ⌊x + 1/2⌋ (round half
toward +∞).  Every quotient the engine takes has a fixed positive integer
denominator, so the embedding computes with integer floor division
(Int.fdiv), and bridge lemmas (fdiv_eq_floor_div, jsRoundDiv_eq_floor)
certify that these agree with the rational formulas.
-/

namespace StudyApp

/-- A study session record (the fields the engine reads).  duration is in
minutes; date is the parsed timestamp of the stored ISO date string. -/
structure StudySession where
  id : String
  courseId : String
  courseName : String
  duration : Int
  date : Int
  completed : Bool
deriving Repr, DecidableEq

/-- A course record (the fields the engine reads). -/
structure Course where
  id : String
  name : String
  icon : String
  totalLessons : Nat
  completedLessons : Nat
deriving Repr, DecidableEq

/-- The study slice of the Redux root state as the selectors read it. -/
structure StudyState where
  sessions : List StudySession
  courses : List Course
deriving Repr, DecidableEq

/-- Priority tier of a recommendation. -/
inductive Priority where
  | high
  | medium
  | low
deriving Repr, DecidableEq

/-- The reason message of a recommendation, one constructor per template of
the first-matching-rule chain, carrying the interpolated quantity. -/
inductive Reason where
  | catchUp (p : Int)
  | review (d : Int)
  | increaseTime (m : Int)
  | finishStrong (p : Int)
  | steady (p : Int)
deriving Repr, DecidableEq

/-- One entry of getStudyRecommendations' result. -/
structure StudyRecommendation where
  courseId : String
  courseName : String
  priority : Priority
  reason : Reason
  suggestedMinutes : Int
  score : Int
deriving Repr, DecidableEq

/-- One entry of getDailyMinutesThisWeek's result; date is the midnight
timestamp of the bucket's calendar day. -/
structure DailyMinutesData where
  date : Int
  minutes : Int
deriving Repr, DecidableEq

/-- One entry of getCourseCompletionData's result. -/
structure CourseCompletionData where
  courseName : String
  courseId : String
  completionPercentage : Int
  completedLessons : Nat
  totalLessons : Nat
deriving Repr, DecidableEq

/-- Milliseconds in a day: 24 * 60 * 60 * 1000. -/
def dayMs : Int := 86400000

/-- JavaScript Math.round on a real value: round half toward positive
infinity, ⌊q + 1/2⌋.  Used on the specification side; the executable
embedding uses jsRoundDiv and the bridge lemma jsRoundDiv_eq_floor. -/
def jsRound (q : ℚ) : Int := ⌊q + 1 / 2⌋

/-- JavaScript Math.round(a / b) for an integer numerator and positive
integer denominator: ⌊a/b + 1/2⌋ = ⌊(2a + b) / (2b)⌋, computed with
floor division so that the kernel can evaluate it.  The lemma
jsRoundDiv_eq_floor certifies the equation with the rational formula. -/
def jsRoundDiv (a b : Int) : Int := Int.fdiv (2 * a + b) (2 * b)

/-- JavaScript setHours(0,0,0,0) on a timestamp in the fixed timezone:
round down to the enclosing multiple of dayMs. -/
def zeroTime (t : Int) : Int := Int.fdiv t dayMs * dayMs

/-- The inline completion-percentage computation, used both by
getCourseCompletionData and getStudyRecommendations:
totalLessons > 0 ? Math.round((completedLessons / totalLessons) * 100) : 0.
(completedLessons / totalLessons) * 100 is the rational
100 * completedLessons / totalLessons, rounded by jsRoundDiv. -/
def courseCompletionPct (c : Course) : Int :=
  if 0 < c.totalLessons then
    jsRoundDiv (100 * (c.completedLessons : Int)) (c.totalLessons : Int)
  else 0

/-- One step of the courseWeeklyMinutes record accumulation:
record[s.courseId] = (record[s.courseId] || 0) + s.duration. -/
def addWeekly (m : String → Int) (s : StudySession) : String → Int :=
  fun cid => if cid = s.courseId then m cid + s.duration else m cid

/-- The courseWeeklyMinutes record of getStudyRecommendations: sessions are
first filtered by sessionDate >= weekAgo (weekAgo = now - 7*24h), then
durations are accumulated per courseId; a missing key reads as 0. -/
def courseWeeklyMinutesMap (sessions : List StudySession) (now : Int) :
    String → Int :=
  (sessions.filter (fun s => now - 7 * dayMs ≤ s.date)).foldl addWeekly
    (fun _ => 0)

/-- Lookup in the weekly-minutes record (the `|| 0` default is the function's
value at an untouched key). -/
def courseWeeklyMinutes (sessions : List StudySession) (now : Int)
    (cid : String) : Int :=
  courseWeeklyMinutesMap sessions now cid

/-- The session comparator (a, b) => b.date - a.date used to sort a course's
sessions most-recent-first: a precedes b when a.date ≥ b.date. -/
def byDateDesc (a b : StudySession) : Prop := b.date ≤ a.date

instance : DecidableRel byDateDesc :=
  fun a b => inferInstanceAs (Decidable (b.date ≤ a.date))

instance : IsTotal StudySession byDateDesc :=
  ⟨fun a b => le_total b.date a.date⟩

instance : IsTrans StudySession byDateDesc :=
  ⟨fun _ _ _ hab hbc => le_trans hbc hab⟩

/-- A course's sessions sorted by date descending (JavaScript Array.sort is
stable, so a stable sort embeds it faithfully). -/
def courseSessionsByDateDesc (sessions : List StudySession) (cid : String) :
    List StudySession :=
  List.insertionSort byDateDesc (sessions.filter (fun s => s.courseId = cid))

/-- courseLastStudy[course.id]: the date of the head of the course's sessions
sorted most-recent-first, or null when the course has no sessions. -/
def courseLastStudy (sessions : List StudySession) (cid : String) :
    Option Int :=
  (courseSessionsByDateDesc sessions cid).head?.map (fun s => s.date)

/-- courseAvgDuration[course.id]: Math.round(totalDuration / count) over all
of the course's sessions, or the 30-minute default when it has none. -/
def courseAvgDuration (sessions : List StudySession) (cid : String) : Int :=
  let cs := sessions.filter (fun s => s.courseId = cid)
  if 0 < cs.length then
    jsRoundDiv (cs.foldl (fun sum s => sum + s.duration) 0) (cs.length : Int)
  else 30

/-- daysSinceLastStudy: Math.floor((now - lastStudy) / 86400000) when the
course has been studied, else the 999-day never-studied sentinel. -/
def daysSinceLastStudy (sessions : List StudySession) (cid : String)
    (now : Int) : Int :=
  match courseLastStudy sessions cid with
  | some d => Int.fdiv (now - d) dayMs
  | none => 999

/-- The body of the map over eligible courses in getStudyRecommendations:
computes the four factors, the raw totalScore, priority, reason, suggested
duration and the emitted score Math.min(Math.round(totalScore), 100).

totalScore = (100 - completionPercentage) * 0.4 + recencyScore +
weeklyScore + progressUrgency; its only non-integer contribution has
denominator 5, so the embedding carries the integer totalScore5 =
5 * totalScore and compares it against 5 * 70 and 5 * 40.  The theorems
score_eq_min_round_rawScore and priority_characterization certify
agreement with the rational formula. -/
def recommendCourse (sessions : List StudySession) (now : Int)
    (course : Course) : StudyRecommendation :=
  let completionPercentage := courseCompletionPct course
  let days := daysSinceLastStudy sessions course.id now
  let recencyScore : Int := min (days * 5) 30
  let weeklyMinutes := courseWeeklyMinutes sessions now course.id
  let weeklyScore : Int :=
    if weeklyMinutes < 30 then 20 else if weeklyMinutes < 60 then 10 else 0
  let progressUrgency : Int :=
    if 80 ≤ completionPercentage ∧ completionPercentage < 100 then 10 else 0
  let totalScore5 : Int :=
    (100 - completionPercentage) * 2 +
      5 * (recencyScore + weeklyScore + progressUrgency)
  let priority : Priority :=
    if 350 ≤ totalScore5 then .high
    else if 200 ≤ totalScore5 then .medium
    else .low
  let reason : Reason :=
    if completionPercentage < 30 then .catchUp completionPercentage
    else if 7 < days then .review days
    else if weeklyMinutes < 30 then .increaseTime weeklyMinutes
    else if 80 ≤ completionPercentage ∧ completionPercentage < 100 then
      .finishStrong completionPercentage
    else .steady completionPercentage
  let avgStored := courseAvgDuration sessions course.id
  let avgDuration := if avgStored = 0 then 30 else avgStored
  let suggestedMinutes :=
    if priority = .high then max avgDuration 45
    else if priority = .medium then max avgDuration 30
    else avgDuration
  { courseId := course.id
    courseName := course.name
    priority := priority
    reason := reason
    suggestedMinutes := suggestedMinutes
    score := min (jsRoundDiv totalScore5 5) 100 }

/-- The recommendation comparator (a, b) => b.score - a.score: a precedes b
when a.score ≥ b.score. -/
def recScoreGe (a b : StudyRecommendation) : Prop := b.score ≤ a.score

instance : DecidableRel recScoreGe :=
  fun a b => inferInstanceAs (Decidable (b.score ≤ a.score))

instance : IsTotal StudyRecommendation recScoreGe :=
  ⟨fun a b => le_total b.score a.score⟩

instance : IsTrans StudyRecommendation recScoreGe :=
  ⟨fun _ _ _ hab hbc => le_trans hbc hab⟩

/-- The recommendations for the eligible courses, in course-collection
order, before sorting and truncation. -/
def eligibleRecommendations (state : StudyState) (now : Int) :
    List StudyRecommendation :=
  (state.courses.filter (fun c => 0 < c.totalLessons)).map
    (recommendCourse state.sessions now)

/-- getStudyRecommendations: filter eligible courses, score each, sort by
score descending (stable) and keep the first three. -/
def getStudyRecommendations (state : StudyState) (now : Int) :
    List StudyRecommendation :=
  (List.insertionSort recScoreGe (eligibleRecommendations state now)).take 3

/-- One bucket of the daily-minutes series: the day i days before today,
normalized to midnight, with the summed durations of the sessions whose
calendar date equals that day. -/
def dailyEntry (sessions : List StudySession) (now : Int) (i : Nat) :
    DailyMinutesData :=
  let date := zeroTime (now - (i : Int) * dayMs)
  let daySessions := sessions.filter (fun s => zeroTime s.date = date)
  { date := date
    minutes := daySessions.foldl (fun sum s => sum + s.duration) 0 }

/-- getDailyMinutesThisWeek: the loop for i = 6 down to 0 pushing one bucket
per day. -/
def getDailyMinutesThisWeek (state : StudyState) (now : Int) :
    List DailyMinutesData :=
  (List.range 7).map (fun k => dailyEntry state.sessions now (6 - k))

/-- The record emitted per course by getCourseCompletionData. -/
def courseCompletionEntry (course : Course) : CourseCompletionData :=
  { courseName := course.name
    courseId := course.id
    completionPercentage := courseCompletionPct course
    completedLessons := course.completedLessons
    totalLessons := course.totalLessons }

/-- getCourseCompletionData: map every course to its record, then filter to
those with totalLessons > 0. -/
def getCourseCompletionData (state : StudyState) : List CourseCompletionData :=
  (state.courses.map courseCompletionEntry).filter
    (fun d => 0 < d.totalLessons)

/-! ### Specification-side definitions

These follow the specification's wording of the scoring factors and clamp,
to be compared with the engine's computation. -/

/-- The completion-gap factor as the spec words it:
(100 - completionPercentage) * 0.4. -/
def spec_completionGap (p : Int) : ℚ := (100 - p) * (2 / 5)

/-- The staleness factor as the spec words it:
min(daysSinceLastStudy * 5, 30). -/
def spec_staleness (d : Int) : Int := min (d * 5) 30

/-- The weekly under-study factor as the spec words it. -/
def spec_weeklyUnderStudy (w : Int) : Int :=
  if w < 30 then 20 else if w < 60 then 10 else 0

/-- The near-completion bonus as the spec words it. -/
def spec_nearCompletionBonus (p : Int) : Int :=
  if 80 ≤ p ∧ p < 100 then 10 else 0

/-- The sum of the four factors as the spec words it. -/
def spec_rawScore (p d w : Int) : ℚ :=
  spec_completionGap p + (spec_staleness d : ℚ) +
    (spec_weeklyUnderStudy w : ℚ) + (spec_nearCompletionBonus p : ℚ)

/-- The factor sum evaluated at the engine's own derived quantities for a
course. -/
def rawScoreOf (sessions : List StudySession) (now : Int) (course : Course) :
    ℚ :=
  spec_rawScore (courseCompletionPct course)
    (daysSinceLastStudy sessions course.id now)
    (courseWeeklyMinutes sessions now course.id)

/-- Rounding then clamping to both ends of [0, 100], as the claim words the
final score. -/
def spec_clampedScore (q : ℚ) : Int := max 0 (min (jsRound q) 100)

/-- The weekly sum over the window the claim describes for weeklyMinutes:
exclusive at now - 7*24h and bounded above by now. -/
def spec_weekWindowMinutes (sessions : List StudySession) (now : Int)
    (cid : String) : Int :=
  ((sessions.filter
      (fun s => s.courseId = cid ∧ now - 7 * dayMs < s.date ∧ s.date ≤ now)).map
    (fun s => s.duration)).sum

/-! ### Bridge lemmas: the integer floor divisions equal the rational
formulas they embed -/

/-- Floor division by a positive integer is the floor of the rational
quotient (the JavaScript Math.floor(a / b)). -/
theorem fdiv_eq_floor_div (a b : Int) (hb : 0 < b) :
    Int.fdiv a b = ⌊(a : ℚ) / (b : ℚ)⌋ := by
  rw [Int.fdiv_eq_ediv a hb.le]
  have h1 : ((b.toNat : ℕ) : ℤ) = b := Int.toNat_of_nonneg hb.le
  have h2 : ((b.toNat : ℕ) : ℚ) = (b : ℚ) := by exact_mod_cast h1
  calc a / b = a / ((b.toNat : ℕ) : ℤ) := by rw [h1]
    _ = ⌊((a : ℚ) / ((b.toNat : ℕ) : ℚ))⌋ :=
        (Rat.floor_intCast_div_natCast a b.toNat).symm
    _ = ⌊((a : ℚ) / (b : ℚ))⌋ := by rw [h2]

/-- jsRoundDiv a b is Math.round of the rational a / b when b > 0. -/
theorem jsRoundDiv_eq_floor (a b : Int) (hb : 0 < b) :
    jsRoundDiv a b = jsRound ((a : ℚ) / (b : ℚ)) := by
  have hbq : (b : ℚ) ≠ 0 := by exact_mod_cast hb.ne'
  unfold jsRoundDiv jsRound
  rw [fdiv_eq_floor_div _ _ (by positivity)]
  congr 1
  push_cast
  field_simp
  ring

/-! ### Claim C1 -/

/-- C1 (counterexample): the engine does not clamp the final score to
[0, 100].  For the course with totalLessons = 1 and completedLessons = 300
(eligible, and a tolerated upstream violation) and no sessions, the emitted
score is -11910, while rounding the factor sum and clamping it to [0, 100]
would give 0. -/
theorem score_lower_clamp_counterexample :
    (getStudyRecommendations
        ⟨[], [⟨("c1"), ("C1"), (""), 1, 300⟩]⟩ 0).map (fun r => r.score) =
      [-11910] ∧
    spec_clampedScore (rawScoreOf [] 0 ⟨("c1"), ("C1"), (""), 1, 300⟩) = 0 ∧
    (-11910 : Int) ≠ 0 := by
  refine ⟨by decide, ?_, by decide⟩
  have h1 : courseCompletionPct (⟨("c1"), ("C1"), (""), 1, 300⟩ : Course) =
      30000 := by decide
  have h2 : daysSinceLastStudy []
      ((⟨("c1"), ("C1"), (""), 1, 300⟩ : Course).id) 0 = 999 := by decide
  have h3 : courseWeeklyMinutes [] 0
      ((⟨("c1"), ("C1"), (""), 1, 300⟩ : Course).id) = 0 := by decide
  have hraw : rawScoreOf [] 0 ⟨("c1"), ("C1"), (""), 1, 300⟩ =
      (-11910 : ℚ) := by
    unfold rawScoreOf
    rw [h1, h2, h3]
    unfold spec_rawScore spec_completionGap spec_staleness
      spec_weeklyUnderStudy spec_nearCompletionBonus
    norm_num
  rw [hraw]
  have hf2 : ⌊(-11910 : ℚ) + 1 / 2⌋ = (-11910 : Int) := by
    norm_num [Int.floor_eq_iff]
  unfold spec_clampedScore jsRound
  rw [hf2]
  norm_num

/-- C1 (amended): for every eligible course the emitted score is the factor
sum — completion gap (100 - completionPercentage) * 0.4, staleness
min(daysSinceLastStudy * 5, 30), weekly under-study 20/10/0 and the
near-completion bonus — rounded to the nearest integer and clamped above at
100; no lower clamp is applied. -/
theorem score_eq_min_round_rawScore (sessions : List StudySession) (now : Int)
    (course : Course) (h : 0 < course.totalLessons) :
    (recommendCourse sessions now course).score =
      min (jsRound (rawScoreOf sessions now course)) 100 := by
  simp only [recommendCourse, rawScoreOf, spec_rawScore, spec_completionGap,
    spec_staleness, spec_weeklyUnderStudy, spec_nearCompletionBonus]
  rw [jsRoundDiv_eq_floor _ 5 (by norm_num)]
  unfold jsRound
  congr 1
  push_cast
  ring_nf

/-- Witness for score_eq_min_round_rawScore at a concrete eligible course. -/
theorem score_eq_min_round_rawScore_witness :
    0 < (⟨("c1"), ("C1"), (""), 1, 300⟩ : Course).totalLessons ∧
    (recommendCourse [] 0 ⟨("c1"), ("C1"), (""), 1, 300⟩).score =
      min (jsRound (rawScoreOf [] 0 ⟨("c1"), ("C1"), (""), 1, 300⟩)) 100 :=
  ⟨by decide, score_eq_min_round_rawScore [] 0 _ (by decide)⟩

/-! ### Claim C2 -/

/-- C2 (code bug): on the eligible course with totalLessons = 2 and
completedLessons = 500 — an upstream violation the engine must tolerate —
the emitted score is -9910, which is negative, so the score field does not
lie in [0, 100]. -/
theorem negative_score_emitted :
    (getStudyRecommendations
        ⟨[], [⟨("c2"), ("C2"), (""), 2, 500⟩]⟩ 0).map (fun r => r.score) =
      [-9910] ∧
    (-9910 : Int) < 0 := by
  refine ⟨by decide, by decide⟩

/-! ### Claim C3 -/

/-- The priority computed by recommendCourse is the threshold comparison of
an integer X with raw factor sum X / 5: the scaled totalScore. -/
theorem priority_characterization (sessions : List StudySession) (now : Int)
    (course : Course) :
    ∃ X : Int,
      (recommendCourse sessions now course).priority =
        (if 350 ≤ X then Priority.high
         else if 200 ≤ X then Priority.medium
         else Priority.low) ∧
      rawScoreOf sessions now course = (X : ℚ) / 5 := by
  refine ⟨(100 - courseCompletionPct course) * 2 +
      5 * (min (daysSinceLastStudy sessions course.id now * 5) 30 +
        (if courseWeeklyMinutes sessions now course.id < 30 then (20 : Int)
         else if courseWeeklyMinutes sessions now course.id < 60 then 10
         else 0) +
        (if 80 ≤ courseCompletionPct course ∧ courseCompletionPct course < 100
         then (10 : Int) else 0)), rfl, ?_⟩
  unfold rawScoreOf spec_rawScore spec_completionGap spec_staleness
    spec_weeklyUnderStudy spec_nearCompletionBonus
  rw [eq_div_iff (by norm_num : (5 : ℚ) ≠ 0)]
  push_cast
  ring

/-- C3 (counterexample): priority is computed from the un-rounded factor
sum, not from the final emitted score.  For the course with 1 of 100
lessons complete and a single 60-minute session 6.5 days ago, the factor
sum is 69.6, so the final score is 70 but the priority is medium, refuting
high-iff-score-at-least-70 on the final score. -/
theorem priority_rounding_counterexample :
    (getStudyRecommendations
        ⟨[⟨("s1"), ("c1"), ("C1"), 60, 648000000, true⟩],
          [⟨("c1"), ("C1"), (""), 100, 1⟩]⟩
        1209600000).map (fun r => (r.score, r.priority)) =
      [(70, Priority.medium)] ∧
    Priority.medium ≠ Priority.high := by
  refine ⟨by decide, by decide⟩

/-- C3 (amended): for every eligible course, the priority tier is decided
by the 70 and 40 thresholds applied to the raw factor sum before rounding
and clamping: high iff the sum is at least 70, medium iff it is in
[40, 70), low iff it is below 40. -/
theorem priority_thresholds_on_raw_sum (sessions : List StudySession)
    (now : Int) (course : Course) (h : 0 < course.totalLessons) :
    ((recommendCourse sessions now course).priority = Priority.high ↔
      70 ≤ rawScoreOf sessions now course) ∧
    ((recommendCourse sessions now course).priority = Priority.medium ↔
      40 ≤ rawScoreOf sessions now course ∧
        rawScoreOf sessions now course < 70) ∧
    ((recommendCourse sessions now course).priority = Priority.low ↔
      rawScoreOf sessions now course < 40) := by
  obtain ⟨X, hp, hr⟩ := priority_characterization sessions now course
  have h70 : (70 : ℚ) ≤ (X : ℚ) / 5 ↔ (350 : Int) ≤ X := by
    rw [le_div_iff₀ (by norm_num : (0 : ℚ) < 5)]
    norm_cast
  have h40 : (40 : ℚ) ≤ (X : ℚ) / 5 ↔ (200 : Int) ≤ X := by
    rw [le_div_iff₀ (by norm_num : (0 : ℚ) < 5)]
    norm_cast
  have hlt70 : (X : ℚ) / 5 < 70 ↔ X < (350 : Int) := by
    rw [div_lt_iff₀ (by norm_num : (0 : ℚ) < 5)]
    norm_cast
  have hlt40 : (X : ℚ) / 5 < 40 ↔ X < (200 : Int) := by
    rw [div_lt_iff₀ (by norm_num : (0 : ℚ) < 5)]
    norm_cast
  rw [hp, hr]
  simp only [h70, h40, hlt70, hlt40]
  split_ifs with h1 h2
  · exact ⟨⟨fun _ => h1, fun _ => rfl⟩,
      ⟨fun hc => absurd hc (by decide), fun hx => absurd hx.2 (by omega)⟩,
      ⟨fun hc => absurd hc (by decide), fun hx => absurd hx (by omega)⟩⟩
  · exact ⟨⟨fun hc => absurd hc (by decide), fun hx => absurd hx h1⟩,
      ⟨fun _ => ⟨h2, by omega⟩, fun _ => rfl⟩,
      ⟨fun hc => absurd hc (by decide), fun hx => absurd hx (by omega)⟩⟩
  · exact ⟨⟨fun hc => absurd hc (by decide), fun hx => absurd hx h1⟩,
      ⟨fun hc => absurd hc (by decide), fun hx => absurd hx.1 h2⟩,
      ⟨fun _ => by omega, fun _ => rfl⟩⟩

/-- Witness for priority_thresholds_on_raw_sum at a concrete eligible
course. -/
theorem priority_thresholds_on_raw_sum_witness :
    ((recommendCourse [] 0 ⟨("c1"), ("C1"), (""), 100, 1⟩).priority =
        Priority.high ↔
      70 ≤ rawScoreOf [] 0 ⟨("c1"), ("C1"), (""), 100, 1⟩) ∧
    ((recommendCourse [] 0 ⟨("c1"), ("C1"), (""), 100, 1⟩).priority =
        Priority.medium ↔
      40 ≤ rawScoreOf [] 0 ⟨("c1"), ("C1"), (""), 100, 1⟩ ∧
        rawScoreOf [] 0 ⟨("c1"), ("C1"), (""), 100, 1⟩ < 70) ∧
    ((recommendCourse [] 0 ⟨("c1"), ("C1"), (""), 100, 1⟩).priority =
        Priority.low ↔
      rawScoreOf [] 0 ⟨("c1"), ("C1"), (""), 100, 1⟩ < 40) :=
  priority_thresholds_on_raw_sum [] 0 ⟨("c1"), ("C1"), (""), 100, 1⟩
    (by decide)

/-! ### Claim C6 -/

/-- Reading the weekly-minutes record at a key gives the starting value
plus the summed durations of the folded sessions with that courseId. -/
theorem foldl_addWeekly_apply (l : List StudySession) (m : String → Int)
    (cid : String) :
    l.foldl addWeekly m cid =
      m cid +
        ((l.filter (fun s => s.courseId = cid)).map
          (fun s => s.duration)).sum := by
  induction l generalizing m with
  | nil => simp
  | cons s l ih =>
    rw [List.foldl_cons, ih]
    by_cases hs : s.courseId = cid
    · simp [addWeekly, hs, List.filter_cons, add_assoc]
    · have hs2 : ¬cid = s.courseId := fun hh => hs hh.symm
      simp [addWeekly, hs, hs2, List.filter_cons]

/-- The weekly-minutes record entry for a course equals the summed
durations of its sessions passing the week filter. -/
theorem courseWeeklyMinutes_eq_sum (sessions : List StudySession) (now : Int)
    (cid : String) :
    courseWeeklyMinutes sessions now cid =
      ((sessions.filter
          (fun s => s.courseId = cid ∧ now - 7 * dayMs ≤ s.date)).map
        (fun s => s.duration)).sum := by
  unfold courseWeeklyMinutes courseWeeklyMinutesMap
  rw [foldl_addWeekly_apply, List.filter_filter]
  have hfun : (fun s : StudySession =>
      decide (s.courseId = cid) && decide (now - 7 * dayMs ≤ s.date)) =
      (fun s : StudySession =>
        decide (s.courseId = cid ∧ now - 7 * dayMs ≤ s.date)) := by
    funext s
    by_cases h1 : s.courseId = cid <;>
      by_cases h2 : now - 7 * dayMs ≤ s.date <;> simp [h1, h2]
  simp only [zero_add]
  rw [hfun]

/-- C6 (counterexample): the week filter is inclusive at now - 7*24h and
has no upper bound.  With now = day 14, a 50-minute session dated exactly
day 7 (the boundary) and a 7-minute session dated day 15 (the future) both
count: the engine computes 57 weekly minutes, while the claimed window
(now - 7d, now] contains neither session and sums to 0. -/
theorem weekWindow_boundary_counterexample :
    courseWeeklyMinutes
        [⟨("a"), ("c1"), ("C1"), 50, 604800000, true⟩,
          ⟨("b"), ("c1"), ("C1"), 7, 1296000000, true⟩]
        1209600000 ("c1") = 57 ∧
    spec_weekWindowMinutes
        [⟨("a"), ("c1"), ("C1"), 50, 604800000, true⟩,
          ⟨("b"), ("c1"), ("C1"), 7, 1296000000, true⟩]
        1209600000 ("c1") = 0 ∧
    (57 : Int) ≠ 0 := by
  refine ⟨by decide, by decide, by decide⟩

/-- C6 (amended): for every course, weeklyMinutes equals the sum of
durations of exactly those of the course's sessions whose date satisfies
date ≥ now - 7*24h — inclusive at the start and with no upper bound. -/
theorem weeklyMinutes_inclusive_unbounded (sessions : List StudySession)
    (now : Int) (cid : String) :
    courseWeeklyMinutes sessions now cid =
      ((sessions.filter
          (fun s => s.courseId = cid ∧ now - 7 * dayMs ≤ s.date)).map
        (fun s => s.duration)).sum :=
  courseWeeklyMinutes_eq_sum sessions now cid

/-! ### Claim C4 -/

/-- A filtered front segment: filtering preserves the front-segment
relation between lists. -/
theorem filter_front {α : Type} (p : α → Bool) {l1 l2 : List α}
    (h : l1 <+: l2) : l1.filter p <+: l2.filter p := by
  obtain ⟨t, rfl⟩ := h
  exact ⟨t.filter p, (List.filter_append _ _).symm⟩

/-- Every emitted recommendation is the recommendation of some eligible
course (truncation and sorting add nothing). -/
theorem mem_recommendations {state : StudyState} {now : Int}
    {r : StudyRecommendation} (hr : r ∈ getStudyRecommendations state now) :
    r ∈ eligibleRecommendations state now := by
  unfold getStudyRecommendations at hr
  have h1 : r ∈ List.insertionSort recScoreGe
      (eligibleRecommendations state now) :=
    (List.take_sublist 3 _).subset hr
  exact (List.mem_insertionSort recScoreGe).mp h1

/-- Inserting into a list leaves the subsequence of any fixed score
unchanged apart from prepending the inserted element when it has that
score: the insertion point only passes over strictly larger scores. -/
theorem filter_score_orderedInsert (q : Int) (a : StudyRecommendation)
    (l : List StudyRecommendation) :
    (List.orderedInsert recScoreGe a l).filter (fun x => x.score == q) =
      if a.score == q then a :: l.filter (fun x => x.score == q)
      else l.filter (fun x => x.score == q) := by
  induction l with
  | nil =>
    by_cases hq : a.score = q <;> simp [List.filter_cons, hq]
  | cons b l ih =>
    by_cases hab : recScoreGe a b
    · have hins : List.orderedInsert recScoreGe a (b :: l) = a :: b :: l := by
        simp [List.orderedInsert, hab]
      rw [hins]
      by_cases hq : a.score = q <;> simp [List.filter_cons, hq]
    · have hins : List.orderedInsert recScoreGe a (b :: l) =
          b :: List.orderedInsert recScoreGe a l := by
        simp [List.orderedInsert, hab]
      rw [hins]
      by_cases hq : a.score = q
      · have hbq : ¬b.score = q := by
          unfold recScoreGe at hab
          omega
        simp [List.filter_cons, hbq, hq, ih]
      · simp [List.filter_cons, ih, hq]

/-- Stability of the sort: for every score value, the subsequence of
recommendations with that score is unchanged by sorting. -/
theorem filter_score_insertionSort (q : Int)
    (l : List StudyRecommendation) :
    (List.insertionSort recScoreGe l).filter (fun x => x.score == q) =
      l.filter (fun x => x.score == q) := by
  induction l with
  | nil => rfl
  | cons a l ih =>
    have hstep : List.insertionSort recScoreGe (a :: l) =
        List.orderedInsert recScoreGe a (List.insertionSort recScoreGe l) :=
      rfl
    rw [hstep, filter_score_orderedInsert, ih]
    by_cases hq : a.score = q <;> simp [List.filter_cons, hq]

/-- C4: the recommendation list is the eligible courses' recommendations
sorted by score descending with stable ties, truncated to three: its length
is min 3 (number of eligible courses); it is empty when no course is
eligible; it is sorted by score descending; for each score value it is a
front segment of the eligible courses' recommendations with that score
(stable tie-break by collection order); and each entry is the
recommendation of an eligible course. -/
theorem recommendations_ranking (state : StudyState) (now : Int) :
    (getStudyRecommendations state now).length =
      min 3 (state.courses.filter (fun c => 0 < c.totalLessons)).length ∧
    ((state.courses.filter (fun c => 0 < c.totalLessons)) = [] →
      getStudyRecommendations state now = []) ∧
    List.Sorted recScoreGe (getStudyRecommendations state now) ∧
    (∀ q : Int,
      (getStudyRecommendations state now).filter (fun x => x.score == q) <+:
        (eligibleRecommendations state now).filter
          (fun x => x.score == q)) ∧
    (∀ r ∈ getStudyRecommendations state now,
      r ∈ eligibleRecommendations state now) := by
  refine ⟨?_, ?_, ?_, ?_, ?_⟩
  · unfold getStudyRecommendations
    rw [List.length_take, (List.perm_insertionSort recScoreGe _).length_eq]
    unfold eligibleRecommendations
    rw [List.length_map]
  · intro h0
    unfold getStudyRecommendations eligibleRecommendations
    rw [h0]
    rfl
  · unfold getStudyRecommendations
    exact (List.sorted_insertionSort recScoreGe _).sublist
      (List.take_sublist 3 _)
  · intro q
    unfold getStudyRecommendations
    have h1 : (List.insertionSort recScoreGe
        (eligibleRecommendations state now)).take 3 <+:
        List.insertionSort recScoreGe (eligibleRecommendations state now) :=
      ⟨_, List.take_append_drop 3 _⟩
    have h2 := filter_front (fun x => x.score == q) h1
    rw [filter_score_insertionSort] at h2
    exact h2
  · intro r hr
    exact mem_recommendations hr

/-- Witness for recommendations_ranking: with no courses at all, the
recommendation list is empty. -/
theorem recommendations_ranking_witness :
    getStudyRecommendations ⟨[], []⟩ 0 = [] :=
  (recommendations_ranking ⟨[], []⟩ 0).2.1 rfl

/-! ### Claim C8 -/

/-- C8: when course ids are unique, a course with totalLessons = 0 appears
in neither the completion series nor the recommendation list, and the
completion series is exactly the eligible courses mapped to their entries
in collection-traversal order. -/
theorem zero_lesson_courses_excluded (state : StudyState) (now : Int)
    (hids : (state.courses.map (fun c => c.id)).Nodup) :
    getCourseCompletionData state =
      (state.courses.filter (fun c => 0 < c.totalLessons)).map
        courseCompletionEntry ∧
    ∀ c ∈ state.courses, c.totalLessons = 0 →
      (∀ d ∈ getCourseCompletionData state, d.courseId ≠ c.id) ∧
      (∀ r ∈ getStudyRecommendations state now, r.courseId ≠ c.id) := by
  have hmap : getCourseCompletionData state =
      (state.courses.filter (fun c => 0 < c.totalLessons)).map
        courseCompletionEntry := by
    unfold getCourseCompletionData
    exact List.filter_map courseCompletionEntry state.courses
  refine ⟨hmap, ?_⟩
  intro c hc hc0
  constructor
  · intro d hd
    rw [hmap] at hd
    obtain ⟨c2, hc2mem, rfl⟩ := List.mem_map.mp hd
    have hc2 : c2 ∈ state.courses := List.mem_of_mem_filter hc2mem
    have hc2pos : 0 < c2.totalLessons := by
      have hb := List.of_mem_filter hc2mem
      simpa using hb
    intro heq
    have hcc : c2 = c := List.inj_on_of_nodup_map hids hc2 hc heq
    rw [hcc] at hc2pos
    omega
  · intro r hr
    have hr2 := mem_recommendations hr
    unfold eligibleRecommendations at hr2
    obtain ⟨c2, hc2mem, rfl⟩ := List.mem_map.mp hr2
    have hc2 : c2 ∈ state.courses := List.mem_of_mem_filter hc2mem
    have hc2pos : 0 < c2.totalLessons := by
      have hb := List.of_mem_filter hc2mem
      simpa using hb
    intro heq
    have hcc : c2 = c := List.inj_on_of_nodup_map hids hc2 hc heq
    rw [hcc] at hc2pos
    omega

/-- Witness for zero_lesson_courses_excluded at a two-course state where
the first course has no lessons. -/
theorem zero_lesson_courses_excluded_witness :
    (∀ d ∈ getCourseCompletionData
        ⟨[], [⟨("a"), ("A"), (""), 0, 0⟩, ⟨("b"), ("B"), (""), 2, 1⟩]⟩,
      d.courseId ≠ (⟨("a"), ("A"), (""), 0, 0⟩ : Course).id) ∧
    (∀ r ∈ getStudyRecommendations
        ⟨[], [⟨("a"), ("A"), (""), 0, 0⟩, ⟨("b"), ("B"), (""), 2, 1⟩]⟩ 0,
      r.courseId ≠ (⟨("a"), ("A"), (""), 0, 0⟩ : Course).id) :=
  (zero_lesson_courses_excluded
      ⟨[], [⟨("a"), ("A"), (""), 0, 0⟩, ⟨("b"), ("B"), (""), 2, 1⟩]⟩ 0
      (by decide)).2
    ⟨("a"), ("A"), (""), 0, 0⟩ (by decide) rfl

/-! ### Claim C5 -/

/-- courseLastStudy is null exactly when the course has no sessions. -/
theorem courseLastStudy_none_iff (sessions : List StudySession)
    (cid : String) :
    courseLastStudy sessions cid = none ↔
      ∀ s ∈ sessions, ¬s.courseId = cid := by
  unfold courseLastStudy courseSessionsByDateDesc
  constructor
  · intro hnone s hs hcid
    have hmem : s ∈ sessions.filter (fun t => t.courseId = cid) :=
      List.mem_filter.mpr ⟨hs, by simp [hcid]⟩
    have hmem2 : s ∈ List.insertionSort byDateDesc
        (sessions.filter (fun t => t.courseId = cid)) :=
      (List.mem_insertionSort byDateDesc).mpr hmem
    cases hsort : List.insertionSort byDateDesc
        (sessions.filter (fun t => t.courseId = cid)) with
    | nil => rw [hsort] at hmem2; exact absurd hmem2 (List.not_mem_nil s)
    | cons a t => rw [hsort] at hnone; simp at hnone
  · intro hall
    have hfilter : sessions.filter (fun t => t.courseId = cid) = [] :=
      List.filter_eq_nil_iff.mpr (fun s hs => by simp [hall s hs])
    rw [hfilter]
    rfl

/-- When courseLastStudy returns a date, it is the date of one of the
course's sessions and no session of the course is more recent. -/
theorem courseLastStudy_some_spec (sessions : List StudySession)
    (cid : String) (d : Int) (hd : courseLastStudy sessions cid = some d) :
    (∃ s ∈ sessions, s.courseId = cid ∧ s.date = d) ∧
    (∀ s ∈ sessions, s.courseId = cid → s.date ≤ d) := by
  unfold courseLastStudy courseSessionsByDateDesc at hd
  cases hsort : List.insertionSort byDateDesc
      (sessions.filter (fun t => t.courseId = cid)) with
  | nil => rw [hsort] at hd; simp at hd
  | cons x t =>
    rw [hsort] at hd
    simp at hd
    have hsorted : List.Sorted byDateDesc (x :: t) := by
      rw [← hsort]
      exact List.sorted_insertionSort byDateDesc _
    have hballt : ∀ y ∈ t, y.date ≤ x.date :=
      fun y hy => (List.sorted_cons.mp hsorted).1 y hy
    have hxF : x ∈ sessions.filter (fun t => t.courseId = cid) := by
      have hx1 : x ∈ List.insertionSort byDateDesc
          (sessions.filter (fun t => t.courseId = cid)) := by
        rw [hsort]
        exact List.mem_cons_self x t
      exact (List.mem_insertionSort byDateDesc).mp hx1
    have hxs : x ∈ sessions := List.mem_of_mem_filter hxF
    have hxcid : x.courseId = cid := by
      have hb := List.of_mem_filter hxF
      simpa using hb
    constructor
    · exact ⟨x, hxs, hxcid, hd⟩
    · intro s hs hscid
      have hsF : s ∈ sessions.filter (fun t => t.courseId = cid) :=
        List.mem_filter.mpr ⟨hs, by simp [hscid]⟩
      have hsL : s ∈ x :: t := by
        rw [← hsort]
        exact (List.mem_insertionSort byDateDesc).mpr hsF
      rcases List.mem_cons.mp hsL with h1 | h2
      · exact le_of_eq (h1 ▸ hd)
      · calc s.date ≤ x.date := hballt s h2
          _ = d := hd

/-- The floored instant-difference day count equals the floored difference
of the midnight-normalized endpoints when the earlier endpoint is
midnight-aligned. -/
theorem fdiv_zeroTime_sub (now d : Int) (hd : dayMs ∣ d) :
    Int.fdiv (now - d) dayMs = Int.fdiv (zeroTime now - zeroTime d) dayMs := by
  unfold zeroTime dayMs
  unfold dayMs at hd
  rw [Int.fdiv_eq_ediv _ (by norm_num), Int.fdiv_eq_ediv _ (by norm_num),
    Int.fdiv_eq_ediv _ (by norm_num), Int.fdiv_eq_ediv _ (by norm_num)]
  omega

/-- C5: when the course's session dates are midnight-aligned calendar
dates (as stored by the app), daysSinceLastStudy for a studied course is
the whole-day difference of the midnight-normalized endpoints, taken from
the most recent session date; for a never-studied course it is the 999-day
sentinel, which saturates the staleness factor at 30. -/
theorem daysSince_calendar_days (sessions : List StudySession) (cid : String)
    (now : Int)
    (hal : ∀ s ∈ sessions, s.courseId = cid → dayMs ∣ s.date) :
    ((∃ s ∈ sessions, s.courseId = cid) →
      ∃ d, courseLastStudy sessions cid = some d) ∧
    (∀ d, courseLastStudy sessions cid = some d →
      (∃ s ∈ sessions, s.courseId = cid ∧ s.date = d) ∧
      (∀ s ∈ sessions, s.courseId = cid → s.date ≤ d) ∧
      daysSinceLastStudy sessions cid now =
        Int.fdiv (zeroTime now - zeroTime d) dayMs) ∧
    ((∀ s ∈ sessions, ¬s.courseId = cid) →
      daysSinceLastStudy sessions cid now = 999 ∧
      spec_staleness (daysSinceLastStudy sessions cid now) = 30) := by
  refine ⟨?_, ?_, ?_⟩
  · rintro ⟨s, hs, hcid⟩
    cases hsome : courseLastStudy sessions cid with
    | none =>
      exact absurd hcid ((courseLastStudy_none_iff sessions cid).mp hsome s hs)
    | some d => exact ⟨d, rfl⟩
  · intro d hd
    obtain ⟨hex, hmax⟩ := courseLastStudy_some_spec sessions cid d hd
    refine ⟨hex, hmax, ?_⟩
    have hdal : dayMs ∣ d := by
      obtain ⟨s, hs, hscid, hsd⟩ := hex
      exact hsd ▸ hal s hs hscid
    unfold daysSinceLastStudy
    rw [hd]
    exact fdiv_zeroTime_sub now d hdal
  · intro hnone
    have h1 : courseLastStudy sessions cid = none :=
      (courseLastStudy_none_iff sessions cid).mpr hnone
    refine ⟨?_, ?_⟩ <;> simp [daysSinceLastStudy, h1, spec_staleness]

/-- Witness for daysSince_calendar_days: one session five days after the
epoch, observed shortly after midnight four days later. -/
theorem daysSince_calendar_days_witness :
    (∃ s ∈ [(⟨("s"), ("c"), ("C"), 30, 432000000, true⟩ : StudySession)],
      s.courseId = ("c" : String) ∧ s.date = 432000000) ∧
    (∀ s ∈ [(⟨("s"), ("c"), ("C"), 30, 432000000, true⟩ : StudySession)],
      s.courseId = ("c" : String) → s.date ≤ 432000000) ∧
    daysSinceLastStudy
        [(⟨("s"), ("c"), ("C"), 30, 432000000, true⟩ : StudySession)]
        ("c") 777600001 =
      Int.fdiv (zeroTime 777600001 - zeroTime 432000000) dayMs :=
  (daysSince_calendar_days
      [(⟨("s"), ("c"), ("C"), 30, 432000000, true⟩ : StudySession)]
      ("c") 777600001 (by decide)).2.1
    432000000 (by decide)

/-! ### Claim C7 -/

/-- Normalizing to midnight commutes with stepping back a whole number of
days. -/
theorem zeroTime_sub_mul (t : Int) (i : Nat) :
    zeroTime (t - (i : Int) * dayMs) = zeroTime t - (i : Int) * dayMs := by
  unfold zeroTime dayMs
  rw [Int.fdiv_eq_ediv _ (by norm_num), Int.fdiv_eq_ediv _ (by norm_num)]
  omega

/-- Folding durations onto an accumulator sums them. -/
theorem foldl_add_duration (l : List StudySession) (a : Int) :
    l.foldl (fun sum s => sum + s.duration) a =
      a + (l.map (fun s => s.duration)).sum := by
  induction l generalizing a with
  | nil => simp
  | cons s l ih =>
    rw [List.foldl_cons, ih, List.map_cons, List.sum_cons]
    ring

/-- C7: the daily-minutes series has exactly 7 entries; entry k is the
calendar day 6 - k days before today (so entries run oldest first and the
last entry is today); each entry's minutes is the summed duration of the
sessions whose midnight-normalized date equals that day; and with no
sessions every entry is 0. -/
theorem daily_minutes_series (state : StudyState) (now : Int) :
    (getDailyMinutesThisWeek state now).length = 7 ∧
    (∀ k : Nat, k < 7 →
      ((getDailyMinutesThisWeek state now)[k]?).map (fun e => e.date) =
        some (zeroTime now - ((6 - k : Nat) : Int) * dayMs) ∧
      ((getDailyMinutesThisWeek state now)[k]?).map (fun e => e.minutes) =
        some (((state.sessions.filter (fun s =>
            zeroTime s.date =
              zeroTime now - ((6 - k : Nat) : Int) * dayMs)).map
          (fun s => s.duration)).sum)) ∧
    ((getDailyMinutesThisWeek state now).getLast?).map (fun e => e.date) =
      some (zeroTime now) ∧
    (state.sessions = [] →
      ∀ e ∈ getDailyMinutesThisWeek state now, e.minutes = 0) := by
  refine ⟨?_, ?_, ?_, ?_⟩
  · simp [getDailyMinutesThisWeek]
  · intro k hk
    have hget : (getDailyMinutesThisWeek state now)[k]? =
        some (dailyEntry state.sessions now (6 - k)) := by
      unfold getDailyMinutesThisWeek
      rw [List.getElem?_map, List.getElem?_range hk]
      rfl
    rw [hget]
    constructor
    · rw [Option.map_some']
      unfold dailyEntry
      rw [zeroTime_sub_mul]
    · rw [Option.map_some']
      unfold dailyEntry
      simp only [zeroTime_sub_mul]
      rw [foldl_add_duration, zero_add]
  · have hlist : getDailyMinutesThisWeek state now =
        [dailyEntry state.sessions now 6, dailyEntry state.sessions now 5,
          dailyEntry state.sessions now 4, dailyEntry state.sessions now 3,
          dailyEntry state.sessions now 2, dailyEntry state.sessions now 1,
          dailyEntry state.sessions now 0] := rfl
    rw [hlist]
    show (some (dailyEntry state.sessions now 0)).map (fun e => e.date) =
      some (zeroTime now)
    rw [Option.map_some']
    unfold dailyEntry
    simp
  · intro hemp e he
    unfold getDailyMinutesThisWeek at he
    obtain ⟨k, hk, rfl⟩ := List.mem_map.mp he
    simp [hemp, dailyEntry]

/-- Witness for daily_minutes_series at the empty state and now = 0,
inspecting entry 6 (today). -/
theorem daily_minutes_series_witness :
    ((getDailyMinutesThisWeek ⟨[], []⟩ 0)[6]?).map (fun e => e.date) =
      some (zeroTime 0 - ((6 - 6 : Nat) : Int) * dayMs) ∧
    ((getDailyMinutesThisWeek ⟨[], []⟩ 0)[6]?).map (fun e => e.minutes) =
      some ((((⟨[], []⟩ : StudyState).sessions.filter (fun s =>
          zeroTime s.date =
            zeroTime 0 - ((6 - 6 : Nat) : Int) * dayMs)).map
        (fun s => s.duration)).sum) :=
  (daily_minutes_series ⟨[], []⟩ 0).2.1 6 (by decide)

/-! ### Claim C10 -/

/-- Filtering a course's sessions ignores a prepended session of another
course. -/
theorem filter_courseId_cons_ne (s : StudySession)
    (sessions : List StudySession) (cid : String)
    (hs : ¬s.courseId = cid) :
    (s :: sessions).filter (fun t => t.courseId = cid) =
      sessions.filter (fun t => t.courseId = cid) := by
  simp [List.filter_cons, hs]

/-- A session of another course does not change a course's weekly
minutes. -/
theorem weekly_cons_ne (s : StudySession) (sessions : List StudySession)
    (now : Int) (cid : String) (hs : ¬s.courseId = cid) :
    courseWeeklyMinutes (s :: sessions) now cid =
      courseWeeklyMinutes sessions now cid := by
  rw [courseWeeklyMinutes_eq_sum, courseWeeklyMinutes_eq_sum]
  simp [List.filter_cons, hs]

/-- A session of another course does not change a course's last-study
date. -/
theorem lastStudy_cons_ne (s : StudySession) (sessions : List StudySession)
    (cid : String) (hs : ¬s.courseId = cid) :
    courseLastStudy (s :: sessions) cid = courseLastStudy sessions cid := by
  unfold courseLastStudy courseSessionsByDateDesc
  rw [filter_courseId_cons_ne s sessions cid hs]

/-- A session of another course does not change a course's average
session duration. -/
theorem avg_cons_ne (s : StudySession) (sessions : List StudySession)
    (cid : String) (hs : ¬s.courseId = cid) :
    courseAvgDuration (s :: sessions) cid = courseAvgDuration sessions cid := by
  unfold courseAvgDuration
  rw [filter_courseId_cons_ne s sessions cid hs]

/-- A session of another course does not change a course's staleness. -/
theorem daysSince_cons_ne (s : StudySession) (sessions : List StudySession)
    (cid : String) (now : Int) (hs : ¬s.courseId = cid) :
    daysSinceLastStudy (s :: sessions) cid now =
      daysSinceLastStudy sessions cid now := by
  unfold daysSinceLastStudy
  rw [lastStudy_cons_ne s sessions cid hs]

/-- A session of another course does not change a course's
recommendation. -/
theorem recommendCourse_cons_ne (s : StudySession)
    (sessions : List StudySession) (now : Int) (course : Course)
    (hs : ¬s.courseId = course.id) :
    recommendCourse (s :: sessions) now course =
      recommendCourse sessions now course := by
  unfold recommendCourse
  rw [weekly_cons_ne s sessions now course.id hs,
    daysSince_cons_ne s sessions course.id now hs,
    avg_cons_ne s sessions course.id hs]

/-- A course with no sessions resolves to the defined sentinel values. -/
theorem noSessions_defaults (sessions : List StudySession) (now : Int)
    (cid : String) (hall : ∀ t ∈ sessions, ¬t.courseId = cid) :
    courseLastStudy sessions cid = none ∧
    courseAvgDuration sessions cid = 30 ∧
    courseWeeklyMinutes sessions now cid = 0 ∧
    daysSinceLastStudy sessions cid now = 999 := by
  have hfilter : sessions.filter (fun t => t.courseId = cid) = [] :=
    List.filter_eq_nil_iff.mpr (fun t ht => by simp [hall t ht])
  have hlast : courseLastStudy sessions cid = none := by
    unfold courseLastStudy courseSessionsByDateDesc
    rw [hfilter]
    rfl
  refine ⟨hlast, ?_, ?_, ?_⟩
  · unfold courseAvgDuration
    rw [hfilter]
    rfl
  · rw [courseWeeklyMinutes_eq_sum]
    have hfilter2 : sessions.filter
        (fun t => t.courseId = cid ∧ now - 7 * dayMs ≤ t.date) = [] :=
      List.filter_eq_nil_iff.mpr (fun t ht => by simp [hall t ht])
    rw [hfilter2]
    rfl
  · unfold daysSinceLastStudy
    rw [hlast]

/-- C10: the engine is a total function of (sessions, courses, now); a
session whose courseId is not a course's id contributes to none of that
course's per-course quantities; a session whose courseId matches no course
at all leaves the entire recommendation list unchanged; and a course with
no sessions resolves to the sentinel values (no last-study date, 30-minute
default average, zero weekly minutes, 999-day staleness). -/
theorem engine_orphan_sessions (sessions : List StudySession) (now : Int)
    (s : StudySession) (cid : String) (courses : List Course)
    (hs : ¬s.courseId = cid) :
    courseWeeklyMinutes (s :: sessions) now cid =
      courseWeeklyMinutes sessions now cid ∧
    courseLastStudy (s :: sessions) cid = courseLastStudy sessions cid ∧
    courseAvgDuration (s :: sessions) cid = courseAvgDuration sessions cid ∧
    daysSinceLastStudy (s :: sessions) cid now =
      daysSinceLastStudy sessions cid now ∧
    ((∀ t ∈ sessions, ¬t.courseId = cid) →
      courseLastStudy sessions cid = none ∧
      courseAvgDuration sessions cid = 30 ∧
      courseWeeklyMinutes sessions now cid = 0 ∧
      daysSinceLastStudy sessions cid now = 999) ∧
    (¬s.courseId ∈ courses.map (fun c => c.id) →
      getStudyRecommendations ⟨s :: sessions, courses⟩ now =
        getStudyRecommendations ⟨sessions, courses⟩ now) := by
  refine ⟨weekly_cons_ne s sessions now cid hs,
    lastStudy_cons_ne s sessions cid hs,
    avg_cons_ne s sessions cid hs,
    daysSince_cons_ne s sessions cid now hs,
    noSessions_defaults sessions now cid, ?_⟩
  intro hnotin
  unfold getStudyRecommendations eligibleRecommendations
  congr 1
  congr 1
  apply List.map_congr_left
  intro c hcf
  have hc : c ∈ courses := List.mem_of_mem_filter hcf
  have hcid : ¬s.courseId = c.id := fun heq =>
    hnotin (heq ▸ List.mem_map_of_mem (fun c => c.id) hc)
  exact recommendCourse_cons_ne s sessions now c hcid

/-- Witness for engine_orphan_sessions: a session referencing the
non-existent course id orphan leaves the stats of course c and the
recommendation list unchanged. -/
theorem engine_orphan_sessions_witness :
    courseWeeklyMinutes
        [(⟨("x"), ("orphan"), ("X"), 10, 0, true⟩ : StudySession)] 0 ("c") =
      courseWeeklyMinutes [] 0 ("c") ∧
    courseLastStudy
        [(⟨("x"), ("orphan"), ("X"), 10, 0, true⟩ : StudySession)] ("c") =
      courseLastStudy [] ("c") ∧
    courseAvgDuration
        [(⟨("x"), ("orphan"), ("X"), 10, 0, true⟩ : StudySession)] ("c") =
      courseAvgDuration [] ("c") ∧
    daysSinceLastStudy
        [(⟨("x"), ("orphan"), ("X"), 10, 0, true⟩ : StudySession)] ("c") 0 =
      daysSinceLastStudy [] ("c") 0 ∧
    ((∀ t ∈ ([] : List StudySession), ¬t.courseId = ("c" : String)) →
      courseLastStudy [] ("c") = none ∧
      courseAvgDuration [] ("c") = 30 ∧
      courseWeeklyMinutes [] 0 ("c") = 0 ∧
      daysSinceLastStudy [] ("c") 0 = 999) ∧
    (¬(⟨("x"), ("orphan"), ("X"), 10, 0, true⟩ : StudySession).courseId ∈
        ([(⟨("c"), ("C"), (""), 4, 1⟩ : Course)].map (fun c => c.id)) →
      getStudyRecommendations
          ⟨[(⟨("x"), ("orphan"), ("X"), 10, 0, true⟩ : StudySession)],
            [(⟨("c"), ("C"), (""), 4, 1⟩ : Course)]⟩ 0 =
        getStudyRecommendations
          ⟨[], [(⟨("c"), ("C"), (""), 4, 1⟩ : Course)]⟩ 0) :=
  engine_orphan_sessions [] 0 (⟨("x"), ("orphan"), ("X"), 10, 0, true⟩)
    ("c") [(⟨("c"), ("C"), (""), 4, 1⟩ : Course)] (by decide)

/-! ### Claim C9 -/

/-- C9: for every course with totalLessons > 0 the emitted completion
percentage is round(100 * completedLessons / totalLessons) with rounding to
the nearest integer, half-up (distance from the exact ratio at most 1/2,
ties rounded up); in particular 1 of 3 gives 33, 2 of 3 gives 67, and the
tie 1 of 8 (12.5) gives 13. -/
theorem completionPct_rounds_half_up :
    (∀ c : Course, 0 < c.totalLessons →
      courseCompletionPct c =
        ⌊(c.completedLessons : ℚ) / (c.totalLessons : ℚ) * 100 + 1 / 2⌋ ∧
      |(courseCompletionPct c : ℚ) -
          (c.completedLessons : ℚ) / (c.totalLessons : ℚ) * 100| ≤ 1 / 2) ∧
    courseCompletionPct ⟨("x"), ("X"), (""), 3, 1⟩ = 33 ∧
    courseCompletionPct ⟨("x"), ("X"), (""), 3, 2⟩ = 67 ∧
    courseCompletionPct ⟨("x"), ("X"), (""), 8, 1⟩ = 13 := by
  refine ⟨fun c hc => ?_, by decide, by decide, by decide⟩
  have ht : (0 : Int) < (c.totalLessons : Int) := by exact_mod_cast hc
  have hpct : courseCompletionPct c =
      ⌊(c.completedLessons : ℚ) / (c.totalLessons : ℚ) * 100 + 1 / 2⌋ := by
    unfold courseCompletionPct
    rw [if_pos hc, jsRoundDiv_eq_floor _ _ ht]
    unfold jsRound
    congr 1
    push_cast
    ring
  refine ⟨hpct, ?_⟩
  set q : ℚ := (c.completedLessons : ℚ) / (c.totalLessons : ℚ) * 100 with hq
  rw [hpct]
  have h1 : (⌊q + 1 / 2⌋ : ℚ) ≤ q + 1 / 2 := Int.floor_le _
  have h2 : q + 1 / 2 - 1 < (⌊q + 1 / 2⌋ : ℚ) := Int.sub_one_lt_floor _
  rw [abs_le]
  constructor <;> linarith

/-- Witness for completionPct_rounds_half_up at the course with 1 of 4
lessons complete. -/
theorem completionPct_rounds_half_up_witness :
    courseCompletionPct ⟨("x"), ("X"), (""), 4, 1⟩ =
      ⌊((⟨("x"), ("X"), (""), 4, 1⟩ : Course).completedLessons : ℚ) /
          ((⟨("x"), ("X"), (""), 4, 1⟩ : Course).totalLessons : ℚ) * 100 +
        1 / 2⌋ ∧
    |(courseCompletionPct ⟨("x"), ("X"), (""), 4, 1⟩ : ℚ) -
        ((⟨("x"), ("X"), (""), 4, 1⟩ : Course).completedLessons : ℚ) /
          ((⟨("x"), ("X"), (""), 4, 1⟩ : Course).totalLessons : ℚ) * 100| ≤
      1 / 2 :=
  completionPct_rounds_half_up.1 ⟨("x"), ("X"), (""), 4, 1⟩ (by decide)

end StudyApp
